import Mathlib

/-!
Verification of the rtladsb Kismet data source decoder
(`capture_sdr_rtladsb/KismetCaptureRtladsb/__init__.py`).

Shallow embedding conventions:
* Python `bytearray` values are `List Nat` with every element below 256.
* Python integers are `Nat` (or `Int` where the source can go negative);
  the bitwise operators `&`, `|`, `^`, `<<`, `>>` map to `&&&`, `|||`,
  `^^^`, `<<<`, `>>>` on `Nat`.
* Indexing that can raise `IndexError`, and `bytes.fromhex` which can raise
  `ValueError`, are modelled in `Except PyErr`; pure field extractors (which
  the source only calls on frames already proven long enough by the CRC
  pass) use `List.getD` with default 0.
* Python floats (`math.sqrt`, `math.atan2`) are modelled as real numbers;
  records carry them symbolically (`FloatExpr`) so record processing stays
  executable, and the real-valued denotations are separate definitions.
-/

/-- Exceptions the modelled Python code can raise. -/
inductive PyErr where
  | valueError
  | indexError
deriving DecidableEq, Repr

/-- Python sequence indexing `l[i]` for the non-negative indices used by the
source: returns the element or raises `IndexError`. -/
def pyGet {α : Type} (l : List α) (i : Nat) : Except PyErr α :=
  if h : i < l.length then .ok l[i] else .error .indexError

/-- The 112-entry table of 24-bit polynomial remainders from `adsb_crc`. -/
def modes_checksum_table : List Nat := [
  0x3935ea, 0x1c9af5, 0xf1b77e, 0x78dbbf, 0xc397db, 0x9e31e9,
  0xb0e2f0, 0x587178, 0x2c38bc, 0x161c5e, 0x0b0e2f, 0xfa7d13,
  0x82c48d, 0xbe9842, 0x5f4c21, 0xd05c14, 0x682e0a, 0x341705,
  0xe5f186, 0x72f8c3, 0xc68665, 0x9cb936, 0x4e5c9b, 0xd8d449,
  0x939020, 0x49c810, 0x24e408, 0x127204, 0x093902, 0x049c81,
  0xfdb444, 0x7eda22, 0x3f6d11, 0xe04c8c, 0x702646, 0x381323,
  0xe3f395, 0x8e03ce, 0x4701e7, 0xdc7af7, 0x91c77f, 0xb719bb,
  0xa476d9, 0xadc168, 0x56e0b4, 0x2b705a, 0x15b82d, 0xf52612,
  0x7a9309, 0xc2b380, 0x6159c0, 0x30ace0, 0x185670, 0x0c2b38,
  0x06159c, 0x030ace, 0x018567, 0xff38b7, 0x80665f, 0xbfc92b,
  0xa01e91, 0xaff54c, 0x57faa6, 0x2bfd53, 0xea04ad, 0x8af852,
  0x457c29, 0xdd4410, 0x6ea208, 0x375104, 0x1ba882, 0x0dd441,
  0xf91024, 0x7c8812, 0x3e4409, 0xe0d800, 0x706c00, 0x383600,
  0x1c1b00, 0x0e0d80, 0x0706c0, 0x038360, 0x01c1b0, 0x00e0d8,
  0x00706c, 0x003836, 0x001c1b, 0xfff409, 0x000000, 0x000000,
  0x000000, 0x000000, 0x000000, 0x000000, 0x000000, 0x000000,
  0x000000, 0x000000, 0x000000, 0x000000, 0x000000, 0x000000,
  0x000000, 0x000000, 0x000000, 0x000000, 0x000000, 0x000000,
  0x000000, 0x000000, 0x000000, 0x000000 ]

/-- Body of one iteration of the `for j in range(0, bits)` loop in
`adsb_crc`: `byte = int(j / 8)`, `bit = j % 8`, `bitmask = 1 << (7 - bit)`,
then `crc ^= modes_checksum_table[j + offset]` when `data[byte] & bitmask`
is truthy. -/
def adsb_crc_step (data : List Nat) (offset : Nat) (crc j : Nat) : Nat :=
  let byteIdx := j / 8
  let bit := j % 8
  let mask := 1 <<< (7 - bit)
  if data.getD byteIdx 0 &&& mask ≠ 0 then
    crc ^^^ modes_checksum_table.getD (j + offset) 0
  else
    crc

/-- Pure model of `adsb_crc(data, bits)`: computes the checksum a message
should have.  `offset` is `112 - 56` when `bits != 112`, else 0; the result
is `crc & 0x00FFFFFF`.  (List accesses use `getD`; the variant with the
exact Python `IndexError` behaviour is `adsb_crcE` below.) -/
def adsb_crc (data : List Nat) (bits : Nat) : Nat :=
  let offset := if bits ≠ 112 then 112 - 56 else 0
  ((List.range bits).foldl (adsb_crc_step data offset) 0) &&& 0xFFFFFF

/-- One loop iteration of `adsb_crc` with the Python exception behaviour:
`data[byte]` is read first, and the table is only indexed when the tested
bit is set, exactly as in the source. -/
def adsb_crcE_step (data : List Nat) (offset : Nat) (crc j : Nat) :
    Except PyErr Nat :=
  let byteIdx := j / 8
  let bit := j % 8
  let mask := 1 <<< (7 - bit)
  match pyGet data byteIdx with
  | .error e => .error e
  | .ok b =>
    if b &&& mask ≠ 0 then
      match pyGet modes_checksum_table (j + offset) with
      | .error e => .error e
      | .ok t => .ok (crc ^^^ t)
    else
      .ok crc

/-- Iterating `adsb_crcE_step` over a list of bit positions. -/
def adsb_crcE_loop (data : List Nat) (offset : Nat) :
    List Nat → Nat → Except PyErr Nat
  | [], crc => .ok crc
  | j :: js, crc =>
    match adsb_crcE_step data offset crc j with
    | .error e => .error e
    | .ok crc2 => adsb_crcE_loop data offset js crc2

/-- `adsb_crc(data, bits)` with the exact Python indexing behaviour:
raises `IndexError` when a byte access or table access is out of range. -/
def adsb_crcE (data : List Nat) (bits : Nat) : Except PyErr Nat :=
  let offset := if bits ≠ 112 then 112 - 56 else 0
  match adsb_crcE_loop data offset (List.range bits) 0 with
  | .error e => .error e
  | .ok crc => .ok (crc &&& 0xFFFFFF)

/-- `adsb_len_by_type(type)`: expected length of the message in bits. -/
def adsb_len_by_type (type : Nat) : Nat :=
  if type = 16 ∨ type = 17 ∨ type = 19 ∨ type = 20 ∨ type = 21 then 112
  else 56

/-- Pure model of `adsb_msg_get_crc(data, bits)`: the crc encoded in the
message, `(data[bits/8-3] << 16) | (data[bits/8-2] << 8) | data[bits/8-1]`. -/
def adsb_msg_get_crc (data : List Nat) (bits : Nat) : Nat :=
  ((data.getD (bits / 8 - 3) 0 <<< 16) ||| (data.getD (bits / 8 - 2) 0 <<< 8)) |||
    data.getD (bits / 8 - 1) 0

/-- `adsb_msg_get_crc` with the Python `IndexError` behaviour. -/
def adsb_msg_get_crcE (data : List Nat) (bits : Nat) : Except PyErr Nat :=
  match pyGet data (bits / 8 - 3) with
  | .error e => .error e
  | .ok a =>
    match pyGet data (bits / 8 - 2) with
    | .error e => .error e
    | .ok b =>
      match pyGet data (bits / 8 - 1) with
      | .error e => .error e
      | .ok c => .ok (((a <<< 16) ||| (b <<< 8)) ||| c)

/-- `adsb_msg_get_type(data)`: `data[0] >> 3`. -/
def adsb_msg_get_type (data : List Nat) : Nat :=
  data.getD 0 0 >>> 3

/-- `adsb_msg_get_icao(data)`: the slice `data[1:4]` (Python slicing never
raises and may return fewer than 3 bytes on short input). -/
def adsb_msg_get_icao (data : List Nat) : List Nat :=
  (data.drop 1).take 3

/-- `adsb_msg_get_fs(data)`: `data[0] & 7`. -/
def adsb_msg_get_fs (data : List Nat) : Nat :=
  data.getD 0 0 &&& 7

/-- `adsb_msg_get_me_subme(data)`: `(data[4] >> 3, data[4] & 7)`. -/
def adsb_msg_get_me_subme (data : List Nat) : Nat × Nat :=
  (data.getD 4 0 >>> 3, data.getD 4 0 &&& 7)

/-- `adsb_msg_get_ac13_altitude(data)`: the 13 bit altitude in feet.
Mirrors the source exactly, including the `data[3] & 0x15` mask. -/
def adsb_msg_get_ac13_altitude (data : List Nat) : Int :=
  let m_bit := data.getD 3 0 &&& (1 <<< 6)
  let q_bit := data.getD 3 0 &&& (1 <<< 4)
  if m_bit = 0 then
    if q_bit ≠ 0 then
      let n := (((data.getD 2 0 &&& 31) <<< 6) |||
                ((data.getD 3 0 &&& 0x80) >>> 2)) |||
               (((data.getD 3 0 &&& 0x20) >>> 1) |||
                (data.getD 3 0 &&& 0x15))
      (n : Int) * 25 - 1000
    else 0
  else 0

/-- `adsb_msg_get_ac12_altitude(data)`: the 12 bit altitude in feet. -/
def adsb_msg_get_ac12_altitude (data : List Nat) : Int :=
  let q_bit := data.getD 5 0 &&& 1
  if q_bit ≠ 0 then
    let n := ((data.getD 5 0 >>> 1) <<< 4) ||| ((data.getD 6 0 &&& 0xF0) >>> 4)
    (n : Int) * 25 - 1000
  else 0

/-- The fixed 64-entry character table `ais_charset` from
`adsb_msg_get_flight`. -/
def ais_charset : List Char :=
  "?ABCDEFGHIJKLMNOPQRSTUVWXYZ????? ???????????????0123456789??????".toList

/-- Python `str.strip()` on a list of characters: removes leading and
trailing whitespace (both ends). -/
def isPySpace (c : Char) : Bool :=
  c == ' ' || c == '\t' || c == '\n' || c == '\r' || c == '\x0b' || c == '\x0c'

/-- Python `str.strip()` (no argument): drops whitespace from both ends. -/
def pyStrip (l : List Char) : List Char :=
  ((l.dropWhile isPySpace).reverse.dropWhile isPySpace).reverse

/-- `adsb_msg_get_flight(data)`: eight 6-bit codes from bytes 5..10 indexed
into `ais_charset`, concatenated, then `flight.strip()` (both ends).  The
indices are below 64 whenever the bytes are below 256, so the `getD`
default is never used on well-formed input. -/
def adsb_msg_get_flight (data : List Nat) : String :=
  let c := fun (i : Nat) => ais_charset.getD i '?'
  let chars := [
    c (data.getD 5 0 >>> 2),
    c (((data.getD 5 0 &&& 3) <<< 4) ||| (data.getD 6 0 >>> 4)),
    c (((data.getD 6 0 &&& 15) <<< 2) ||| (data.getD 7 0 >>> 6)),
    c (data.getD 7 0 &&& 63),
    c (data.getD 8 0 >>> 2),
    c (((data.getD 8 0 &&& 3) <<< 4) ||| (data.getD 9 0 >>> 4)),
    c (((data.getD 9 0 &&& 15) <<< 2) ||| (data.getD 10 0 >>> 6)),
    c (data.getD 10 0 &&& 63) ]
  String.mk (pyStrip chars)

/-- `adsb_msg_get_airborne_position(data)`: `(paireven, lat, lon)` with
`paireven = (data[6] & (1 << 2)) != 0` and the raw 17-bit lat/lon fields. -/
def adsb_msg_get_airborne_position (data : List Nat) : Bool × Nat × Nat :=
  let paireven := (data.getD 6 0 &&& (1 <<< 2)) ≠ 0
  let lat := (((data.getD 6 0 &&& 3) <<< 15) ||| (data.getD 7 0 <<< 7)) |||
             (data.getD 8 0 >>> 1)
  let lon := (((data.getD 8 0 &&& 1) <<< 16) ||| (data.getD 9 0 <<< 8)) |||
             data.getD 10 0
  (paireven, lat, lon)

/-- `ew_dir = (data[5] & 4) >> 2`, computed identically in
`adsb_msg_get_airborne_velocity` and `adsb_msg_get_airborne_heading`. -/
def adsb_ew_dir (data : List Nat) : Nat := (data.getD 5 0 &&& 4) >>> 2

/-- `ew_velocity = ((data[5] & 3) << 8) | data[6]`. -/
def adsb_ew_velocity (data : List Nat) : Nat :=
  ((data.getD 5 0 &&& 3) <<< 8) ||| data.getD 6 0

/-- `ns_dir = (data[7] & 0x80) >> 7`. -/
def adsb_ns_dir (data : List Nat) : Nat := (data.getD 7 0 &&& 0x80) >>> 7

/-- `ns_velocity = ((data[7] & 0x7f) << 3) | ((data[8] & 0xe0) >> 5)`. -/
def adsb_ns_velocity (data : List Nat) : Nat :=
  ((data.getD 7 0 &&& 0x7f) <<< 3) ||| ((data.getD 8 0 &&& 0xe0) >>> 5)

/-- Python `math.atan2(y, x)`, modelled over the reals as the argument of
the complex number `x + y*I`; it lies in the interval `(-pi, pi]`, with
`atan2 0 0 = 0` like the C library function. -/
noncomputable def atan2 (y x : ℝ) : ℝ := Complex.arg ⟨x, y⟩

/-- `adsb_msg_get_airborne_velocity(data)`: the Euclidean norm of the two
velocity components (the source does not apply the direction signs before
squaring). -/
noncomputable def adsb_msg_get_airborne_velocity (data : List Nat) : ℝ :=
  Real.sqrt ((adsb_ns_velocity data : ℝ) * (adsb_ns_velocity data : ℝ) +
             (adsb_ew_velocity data : ℝ) * (adsb_ew_velocity data : ℝ))

/-- `adsb_msg_get_airborne_heading(data)`: heading in degrees.  The signed
components feed `math.atan2`, the result is scaled by `360 / (math.pi * 2)`
and 360 is added when the result is negative. -/
noncomputable def adsb_msg_get_airborne_heading (data : List Nat) : ℝ :=
  let ewv : Int := if adsb_ew_dir data ≠ 0 then -(adsb_ew_velocity data : Int)
                   else (adsb_ew_velocity data : Int)
  let nsv : Int := if adsb_ns_dir data ≠ 0 then -(adsb_ns_velocity data : Int)
                   else (adsb_ns_velocity data : Int)
  let heading := atan2 (ewv : ℝ) (nsv : ℝ) * 360 / (Real.pi * 2)
  if heading < 0 then heading + 360 else heading

/-- Symbolic representation of the float values the dispatcher stores:
the record keeps the defining integer data, and the real-number
denotations are `adsb_msg_get_airborne_velocity` /
`adsb_msg_get_airborne_heading` applied to the same components.  This keeps
record processing executable. -/
inductive FloatExpr where
  | speedOf (ewVelocity nsVelocity : Nat)
  | headingOf (ewDir ewVelocity nsDir nsVelocity : Nat)
deriving DecidableEq, Repr

/-- A JSON-serializable value stored in the output record. -/
inductive Value where
  | str (s : String)
  | int (n : Int)
  | bool (b : Bool)
  | float (x : FloatExpr)
deriving DecidableEq, Repr

/-- The `output` dictionary: insertion-ordered key/value pairs. -/
abbrev Record := List (String × Value)

/-- Python dict assignment `d[k] = v`: replaces the value at the first
occurrence of `k`, else appends the pair (insertion order preserved). -/
def dictInsert (d : Record) (k : String) (v : Value) : Record :=
  match d with
  | [] => [(k, v)]
  | (k2, v2) :: rest =>
    if k2 == k then (k2, v) :: rest else (k2, v2) :: dictInsert rest k v

/-- Whether the record carries the key `k`. -/
def recContains (d : Record) (k : String) : Bool :=
  d.any (fun p => p.1 == k)

/-- Python `bytes.hex()` digits, lowercase. -/
def hexChars : List Char := "0123456789abcdef".toList

/-- Two lowercase hex digits of one byte (bytes are below 256, so the
`getD` default is never used there). -/
def byteToHex (b : Nat) : List Char :=
  [hexChars.getD (b / 16) '0', hexChars.getD (b % 16) '0']

/-- Python `bytes.hex()`: lowercase hex string of a byte sequence. -/
def bytesToHexStr (bs : List Nat) : String :=
  String.mk (bs.map byteToHex).flatten

/-- One iteration of the registry loop
`for row in self.airplanes: if msgicao == row[0]: ...`; each of
`row[0] .. row[4]` can raise `IndexError` on a short row, and each field is
assigned into the dict in source order. -/
def registryStep (msgicao : String) (out : Record) (row : List String) :
    Except PyErr Record :=
  match pyGet row 0 with
  | .error e => .error e
  | .ok r0 =>
    if msgicao == r0 then
      match pyGet row 1 with
      | .error e => .error e
      | .ok r1 =>
        let out := dictInsert out "regid" (.str r1)
        match pyGet row 2 with
        | .error e => .error e
        | .ok r2 =>
          let out := dictInsert out "mdl" (.str r2)
          match pyGet row 3 with
          | .error e => .error e
          | .ok r3 =>
            let out := dictInsert out "type" (.str r3)
            match pyGet row 4 with
            | .error e => .error e
            | .ok r4 => .ok (dictInsert out "operator" (.str r4))
    else
      .ok out

/-- The whole registry loop over `self.airplanes`. -/
def registryFold (msgicao : String) :
    List (List String) → Record → Except PyErr Record
  | [], out => .ok out
  | row :: rest, out =>
    match registryStep msgicao out row with
    | .error e => .error e
    | .ok out2 => registryFold msgicao rest out2

/-- The record assembly inside the `if msgtype == 17:` block of
`__rtl_thread`.  Note that in the source the
`elif msgtype == 0 or msgtype == 4 or msgtype == 16 or msgtype == 20`
branch is indented inside this very block (it is the `elif` of the
`if msgme == 19 ...` statement), which makes it unreachable: `msgtype` is
17 on every path that can evaluate it.  The structure below mirrors that
indentation faithfully. -/
def assembleType17 (out : Record) (msg : List Nat) (msgtype : Nat) : Record :=
  let ms := adsb_msg_get_me_subme msg
  let msgme := ms.1
  let msgsubme := ms.2
  let out :=
    if 1 ≤ msgme ∧ msgme ≤ 4 then
      dictInsert out "callsign" (.str (adsb_msg_get_flight msg))
    else out
  if msgme = 19 ∧ (1 ≤ msgsubme ∧ msgsubme ≤ 4) then
    let p := adsb_msg_get_airborne_position msg
    let out := dictInsert out "coordpair_even" (.bool p.1)
    let out := dictInsert out "raw_lat" (.int p.2.1)
    let out := dictInsert out "raw_lon" (.int p.2.2)
    let out := dictInsert out "altitude" (.int (adsb_msg_get_ac12_altitude msg))
    if msgsubme = 1 ∨ msgsubme = 2 then
      let out := dictInsert out "speed"
        (.float (.speedOf (adsb_ew_velocity msg) (adsb_ns_velocity msg)))
      dictInsert out "heading"
        (.float (.headingOf (adsb_ew_dir msg) (adsb_ew_velocity msg)
                            (adsb_ns_dir msg) (adsb_ns_velocity msg)))
    else out
  else if msgtype = 0 ∨ msgtype = 4 ∨ msgtype = 16 ∨ msgtype = 20 then
    dictInsert out "altitude" (.int (adsb_msg_get_ac13_altitude msg))
  else out

/-- The per-frame work of `__rtl_thread` after CRC validation: build the
`output` dict (icao, registry lookup), and emit it only when
`msgtype == 17` - the `json.dumps` / `handle_json` emission statements sit
inside the `if msgtype == 17:` block in the source, so frames of any other
type build a dict that is then discarded without being emitted.  Returns
`some record` when a record is emitted, `none` otherwise. -/
def dispatchMsg (airplanes : List (List String)) (msg : List Nat)
    (msgtype : Nat) : Except PyErr (Option Record) :=
  let msgicao := bytesToHexStr (adsb_msg_get_icao msg)
  let out0 := dictInsert [] "icao" (.str msgicao)
  match registryFold msgicao airplanes out0 with
  | .error e => .error e
  | .ok out =>
    if msgtype = 17 then .ok (some (assembleType17 out msg msgtype))
    else .ok none

/-- Processing of one decoded frame in `__rtl_thread`: extract the type,
derive the bit length, read the embedded CRC, compute the expected CRC,
`continue` (emit nothing) on mismatch, otherwise assemble and possibly
emit the record. -/
def processMsg (airplanes : List (List String)) (msg : List Nat) :
    Except PyErr (Option Record) :=
  match pyGet msg 0 with
  | .error e => .error e
  | .ok b0 =>
    let msgtype := b0 >>> 3
    let msgbits := adsb_len_by_type msgtype
    match adsb_msg_get_crcE msg msgbits with
    | .error e => .error e
    | .ok msgcrc =>
      match adsb_crcE msg msgbits with
      | .error e => .error e
      | .ok msgcrc2 =>
        if msgcrc ≠ msgcrc2 then .ok none
        else dispatchMsg airplanes msg msgtype

/-- Value of one hex digit, or `none` for a non-hex character. -/
def hexDigitVal (c : Char) : Option Nat :=
  if '0' ≤ c ∧ c ≤ '9' then some (c.toNat - '0'.toNat)
  else if 'a' ≤ c ∧ c ≤ 'f' then some (c.toNat - 'a'.toNat + 10)
  else if 'A' ≤ c ∧ c ≤ 'F' then some (c.toNat - 'A'.toNat + 10)
  else none

/-- Python `bytearray.fromhex`: pairs of hex digits, spaces allowed between
pairs, anything else (including an odd trailing digit) raises
`ValueError`. -/
def pyFromHex : List Char → Except PyErr (List Nat)
  | [] => .ok []
  | ' ' :: rest => pyFromHex rest
  | c1 :: c2 :: rest =>
    match hexDigitVal c1, hexDigitVal c2 with
    | some hi, some lo =>
      match pyFromHex rest with
      | .error e => .error e
      | .ok bs => .ok ((hi * 16 + lo) :: bs)
    | _, _ => .error .valueError
  | _ => .error .valueError

/-- Python slice `s[1:-1]` on a character list (total; short inputs give
the empty result, as in Python). -/
def pySliceInner (l : List Char) : List Char :=
  (l.drop 1).dropLast

/-- Line decoding in `__rtl_thread`:
`bytearray.fromhex(line.decode("UTF-8").strip()[1:-1])` - strip
whitespace, drop the sentinel first and last characters, hex-decode. -/
def decodeLine (line : String) : Except PyErr (List Nat) :=
  pyFromHex (pySliceInner (pyStrip line.toList))

/-- Processing of one text line: decode it to bytes, then run the frame
pipeline.  Any exception propagates (there is no try/except inside the
per-line loop in the source). -/
def processLine (airplanes : List (List String)) (line : String) :
    Except PyErr (Option Record) :=
  match decodeLine line with
  | .error e => .error e
  | .ok msg => processMsg airplanes msg

/-- How the ingestion loop ends: the input stream is exhausted (in the
source this leads to the `RuntimeError("rtl_adsb process exited")` path),
or an exception raised while processing a line escapes the loop (caught
only by the outer `except Exception` handler, which reports the error and
ends the thread). -/
inductive LoopExit where
  | streamEnd
  | raised (e : PyErr)
deriving DecidableEq, Repr

/-- The ingestion loop `for line in self.rtl_exec.stdout:` - processes the
lines in order, collecting emitted records; a raised exception terminates
the loop at that line, skipping all remaining lines. -/
def runLoop (airplanes : List (List String)) :
    List String → List Record × LoopExit
  | [] => ([], .streamEnd)
  | line :: rest =>
    match processLine airplanes line with
    | .error e => ([], .raised e)
    | .ok none => runLoop airplanes rest
    | .ok (some r) =>
      let p := runLoop airplanes rest
      (r :: p.1, p.2)

/-! ### Concrete frames used by the theorems below -/

/-- The known type-17 test line from the spec scenario. -/
def klmLine : String := "*8D4840D6202CC371C32CE0576098;"

/-- The bytes of `klmLine` after sentinel stripping and hex decoding. -/
def klmMsg : List Nat :=
  [0x8D, 0x48, 0x40, 0xD6, 0x20, 0x2C, 0xC3, 0x71, 0xC3, 0x2C, 0xE0,
   0x57, 0x60, 0x98]

/-- The record the pipeline emits for `klmLine` with an empty registry. -/
def klmRec : Record :=
  [("icao", Value.str "4840d6"), ("callsign", Value.str "KLM1023")]

/-- A CRC-valid type-5 frame line: bytes `28 00 00 00` followed by the
matching checksum `20 78 CE`. -/
def type5Line : String := "*280000002078CE;"

/-- A CRC-valid type-0 frame line with a Q-bit altitude field in bytes
2..3 (`01 94`), followed by the matching checksum `09 D3 AE`. -/
def type0Line : String := "*0000019409D3AE;"

/-- The bytes of `type0Line` after sentinel stripping and hex decoding. -/
def type0Msg : List Nat := [0x00, 0x00, 0x01, 0x94, 0x09, 0xD3, 0xAE]

/-- The `klmLine` frame with its last byte changed, so the embedded CRC no
longer matches the computed one. -/
def badCrcLine : String := "*8D4840D6202CC371C32CE0576099;"

/-- A line whose payload is not valid hexadecimal. -/
def badHexLine : String := "*ZZ;"

/-- A frame whose altitude field has the M bit clear and the Q bit set,
with the altitude bits encoding n = 100 once M and Q are removed
(`data[2] = 0x01`, `data[3] = 0x94`). -/
def c4Frame : List Nat := [0x00, 0x00, 0x01, 0x94, 0x00, 0x00, 0x00]

/-- A frame whose callsign field spans bytes 5..10 and encodes the eight
6-bit codes of `" ABC    "` (leading space, three letters, trailing
spaces). -/
def leadingSpaceFrame : List Nat :=
  [0, 0, 0, 0, 0, 0x80, 0x10, 0x83, 0x82, 0x08, 0x20, 0, 0, 0]

/-- A frame whose callsign field encodes the eight 6-bit codes of
`"ABC     "` (three letters, five trailing spaces). -/
def abcFrame : List Nat :=
  [0, 0, 0, 0, 0, 0x04, 0x20, 0xE0, 0x82, 0x08, 0x20, 0, 0, 0]

/-- The bytes of `type5Line` after sentinel stripping and hex decoding. -/
def type5Msg : List Nat := [0x28, 0x00, 0x00, 0x00, 0x20, 0x78, 0xCE]

/-- C1 counterexample: a CRC-valid type-5 frame produces NO output record
at all - the emission statements sit inside the `if msgtype == 17` block -
so no record with the keys `icao` and `crc_valid` is emitted for it. -/
theorem c1_type5_frame_emits_nothing :
    decodeLine type5Line = .ok type5Msg ∧
    adsb_msg_get_type type5Msg = 5 ∧
    adsb_msg_get_crc type5Msg 56 = adsb_crc type5Msg 56 ∧
    processLine [] type5Line = .ok none :=
  ⟨rfl, rfl, rfl, rfl⟩

/-- C2: evaluating the pipeline on a CRC-valid type-0 frame with a Q-bit
altitude field shows that no record is emitted at all, so in particular no
`altitude` field is populated: the `elif msgtype == 0/4/16/20` branch is
nested inside `if msgtype == 17` and is unreachable. -/
theorem c2_type0_frame_gets_no_altitude :
    decodeLine type0Line = .ok type0Msg ∧
    adsb_msg_get_type type0Msg = 0 ∧
    adsb_msg_get_crc type0Msg 56 = adsb_crc type0Msg 56 ∧
    processLine [] type0Line = .ok none :=
  ⟨rfl, rfl, rfl, rfl⟩

/-- C3 counterexample: with a malformed (non-hex) first line, the loop
terminates with the raised `ValueError` and the following well-formed line
is never processed, although alone that line yields a record. -/
theorem c3_malformed_line_kills_loop :
    runLoop [] [badHexLine, klmLine] = ([], .raised .valueError) ∧
    runLoop [] [klmLine] = ([klmRec], .streamEnd) :=
  ⟨rfl, rfl⟩

/-- C4: on a frame whose altitude field has M clear, Q set and encodes
n = 100 once the M and Q bits are removed (so the claim expects
100*25-1000 = 1500), the code returns 1900: the mask `data[3] & 0x15`
keeps the Q bit and drops bit 3, contradicting the source comment that n
results from the removal of bits Q and M. -/
theorem c4_ac13_mask_keeps_q_bit :
    adsb_msg_get_ac13_altitude c4Frame = 1900 ∧
    (1900 : Int) ≠ 100 * 25 - 1000 :=
  ⟨rfl, by decide⟩

/-- C5 counterexample: the scenario line decodes to a type-17 frame with
metype 4 (an identification message), so the emitted record carries no
`raw_lat`, `raw_lon` or `coordpair_even` key, contrary to the claim. -/
theorem c5_no_position_keys_in_record :
    processLine [] klmLine = .ok (some klmRec) ∧
    recContains klmRec "raw_lat" = false ∧
    recContains klmRec "raw_lon" = false ∧
    recContains klmRec "coordpair_even" = false ∧
    recContains klmRec "crc_valid" = false :=
  ⟨rfl, rfl, rfl, rfl, rfl⟩

/-- C5 (amended): the scenario line passes the CRC check and produces
exactly one record: icao `4840d6` plus the callsign `KLM1023` decoded from
the metype-4 identification payload. -/
theorem c5_klm_scenario_record :
    decodeLine klmLine = .ok klmMsg ∧
    adsb_msg_get_type klmMsg = 17 ∧
    adsb_msg_get_me_subme klmMsg = (4, 0) ∧
    adsb_msg_get_crc klmMsg 112 = adsb_crc klmMsg 112 ∧
    processLine [] klmLine = .ok (some klmRec) ∧
    runLoop [] [klmLine] = ([klmRec], .streamEnd) :=
  ⟨rfl, rfl, rfl, rfl, rfl, rfl⟩

/-! ### Dictionary lemmas -/

theorem recContains_nil (k : String) : recContains [] k = false := rfl

theorem recContains_cons (p : String × Value) (rest : Record) (k : String) :
    recContains (p :: rest) k = ((p.1 == k) || recContains rest k) := by
  simp [recContains]

/-- Key membership after a dict assignment: the old keys plus the new one. -/
theorem recContains_dictInsert (d : Record) (k k2 : String) (v : Value) :
    recContains (dictInsert d k v) k2 = (recContains d k2 || (k == k2)) := by
  induction d with
  | nil => simp [dictInsert, recContains_cons, recContains_nil]
  | cons p rest ih =>
    obtain ⟨k3, v3⟩ := p
    by_cases h : (k3 == k) = true
    · have hk : k3 = k := by simpa using h
      subst hk
      simp only [dictInsert, h, if_pos]
      cases h2 : (k3 == k2) <;>
        simp [recContains_cons, h2]
    · simp only [dictInsert, h, if_neg, Bool.false_eq_true, not_false_iff]
      simp [recContains_cons, ih, Bool.or_assoc]

/-! ### Registry loop lemmas -/

/-- A successful registry pass only ever adds the four registry keys:
membership of any other key is unchanged. -/
theorem registryStep_contains {icao : String} {out out2 : Record}
    {row : List String} (h : registryStep icao out row = .ok out2)
    (k : String) (h1 : k ≠ "regid") (h2 : k ≠ "mdl") (h3 : k ≠ "type")
    (h4 : k ≠ "operator") : recContains out2 k = recContains out k := by
  unfold registryStep at h
  cases hg0 : pyGet row 0 with
  | error e => rw [hg0] at h; cases h
  | ok r0 =>
    rw [hg0] at h
    dsimp only at h
    by_cases heq : (icao == r0) = true
    · rw [if_pos heq] at h
      cases hg1 : pyGet row 1 with
      | error e => rw [hg1] at h; cases h
      | ok r1 =>
        rw [hg1] at h
        cases hg2 : pyGet row 2 with
        | error e => rw [hg2] at h; cases h
        | ok r2 =>
          rw [hg2] at h
          cases hg3 : pyGet row 3 with
          | error e => rw [hg3] at h; cases h
          | ok r3 =>
            rw [hg3] at h
            cases hg4 : pyGet row 4 with
            | error e => rw [hg4] at h; cases h
            | ok r4 =>
              rw [hg4] at h
              injection h with h
              subst h
              have e1 : (("regid" : String) == k) = false := by
                simpa using fun hx => h1 hx.symm
              have e2 : (("mdl" : String) == k) = false := by
                simpa using fun hx => h2 hx.symm
              have e3 : (("type" : String) == k) = false := by
                simpa using fun hx => h3 hx.symm
              have e4 : (("operator" : String) == k) = false := by
                simpa using fun hx => h4 hx.symm
              simp [recContains_dictInsert, e1, e2, e3, e4]
    · rw [if_neg heq] at h
      injection h with h
      subst h
      rfl

/-- Same preservation property for the whole registry loop. -/
theorem registryFold_contains {icao : String} :
    ∀ {rows : List (List String)} {out out2 : Record},
      registryFold icao rows out = .ok out2 → ∀ k : String,
      k ≠ "regid" → k ≠ "mdl" → k ≠ "type" → k ≠ "operator" →
      recContains out2 k = recContains out k := by
  intro rows
  induction rows with
  | nil =>
    intro out out2 h k _ _ _ _
    injection h with h
    subst h
    rfl
  | cons row rest ih =>
    intro out out2 h k h1 h2 h3 h4
    unfold registryFold at h
    cases hs : registryStep icao out row with
    | error e => rw [hs] at h; cases h
    | ok mid =>
      rw [hs] at h
      rw [ih h k h1 h2 h3 h4]
      exact registryStep_contains hs k h1 h2 h3 h4

/-- The type-17 record assembly only ever adds the seven per-message keys:
membership of any other key is unchanged. -/
theorem assembleType17_contains (out : Record) (msg : List Nat)
    (msgtype : Nat) (k : String) (h1 : k ≠ "callsign")
    (h2 : k ≠ "coordpair_even") (h3 : k ≠ "raw_lat") (h4 : k ≠ "raw_lon")
    (h5 : k ≠ "altitude") (h6 : k ≠ "speed") (h7 : k ≠ "heading") :
    recContains (assembleType17 out msg msgtype) k = recContains out k := by
  have e1 : (("callsign" : String) == k) = false := by
    simpa using fun hx => h1 hx.symm
  have e2 : (("coordpair_even" : String) == k) = false := by
    simpa using fun hx => h2 hx.symm
  have e3 : (("raw_lat" : String) == k) = false := by
    simpa using fun hx => h3 hx.symm
  have e4 : (("raw_lon" : String) == k) = false := by
    simpa using fun hx => h4 hx.symm
  have e5 : (("altitude" : String) == k) = false := by
    simpa using fun hx => h5 hx.symm
  have e6 : (("speed" : String) == k) = false := by
    simpa using fun hx => h6 hx.symm
  have e7 : (("heading" : String) == k) = false := by
    simpa using fun hx => h7 hx.symm
  simp only [assembleType17]
  split_ifs <;>
    simp [recContains_dictInsert, e1, e2, e3, e4, e5, e6, e7]

/-- C1 (amended): a record is emitted only for type-17 frames, and every
emitted record contains the key `icao` and never a `crc_valid` key
(the source never assigns `output["crc_valid"]`). -/
theorem c1_emitted_records_icao_no_crc_valid
    (airplanes : List (List String)) (msg : List Nat) (rec : Record)
    (h : processMsg airplanes msg = .ok (some rec)) :
    adsb_msg_get_type msg = 17 ∧
    recContains rec "icao" = true ∧
    recContains rec "crc_valid" = false := by
  unfold processMsg at h
  cases hg0 : pyGet msg 0 with
  | error e => rw [hg0] at h; cases h
  | ok b0 =>
    rw [hg0] at h
    dsimp only at h
    cases hc1 : adsb_msg_get_crcE msg (adsb_len_by_type (b0 >>> 3)) with
    | error e => rw [hc1] at h; cases h
    | ok msgcrc =>
      rw [hc1] at h
      dsimp only at h
      cases hc2 : adsb_crcE msg (adsb_len_by_type (b0 >>> 3)) with
      | error e => rw [hc2] at h; cases h
      | ok msgcrc2 =>
        rw [hc2] at h
        dsimp only at h
        by_cases hne : msgcrc ≠ msgcrc2
        · rw [if_pos hne] at h; cases h
        · rw [if_neg hne] at h
          unfold dispatchMsg at h
          dsimp only at h
          cases hr : registryFold (bytesToHexStr (adsb_msg_get_icao msg))
              airplanes
              (dictInsert [] "icao"
                (.str (bytesToHexStr (adsb_msg_get_icao msg)))) with
          | error e => rw [hr] at h; cases h
          | ok out =>
            rw [hr] at h
            dsimp only at h
            by_cases h17 : b0 >>> 3 = 17
            · rw [if_pos h17] at h
              injection h with h
              injection h with h
              subst h
              have htype : adsb_msg_get_type msg = 17 := by
                have hb : msg.getD 0 0 = b0 := by
                  unfold pyGet at hg0
                  split at hg0
                  · injection hg0 with hg0
                    rw [← hg0]
                    exact List.getD_eq_getElem _ _ _
                  · cases hg0
                unfold adsb_msg_get_type
                rw [hb]
                exact h17
              refine ⟨htype, ?_, ?_⟩
              · rw [assembleType17_contains _ _ _ _ (by decide) (by decide)
                  (by decide) (by decide) (by decide) (by decide) (by decide)]
                rw [registryFold_contains hr _ (by decide) (by decide)
                  (by decide) (by decide)]
                simp [recContains_dictInsert, recContains_nil]
              · rw [assembleType17_contains _ _ _ _ (by decide) (by decide)
                  (by decide) (by decide) (by decide) (by decide) (by decide)]
                rw [registryFold_contains hr _ (by decide) (by decide)
                  (by decide) (by decide)]
                simp [recContains_dictInsert, recContains_nil]
            · rw [if_neg h17] at h
              cases h

/-- Witness for the C1 theorem at the concrete type-17 scenario frame. -/
theorem c1_emitted_records_witness :
    adsb_msg_get_type klmMsg = 17 ∧
    recContains klmRec "icao" = true ∧
    recContains klmRec "crc_valid" = false :=
  c1_emitted_records_icao_no_crc_valid [] klmMsg klmRec rfl

/-- C3 (amended): when processing a line raises (hex-decode failure,
malformed or short payload), the exception escapes the per-line loop: the
loop returns immediately with that error and no further line - and no
record - is processed. -/
theorem c3_raised_error_stops_loop (airplanes : List (List String))
    (line : String) (rest : List String) (e : PyErr)
    (h : processLine airplanes line = .error e) :
    runLoop airplanes (line :: rest) = ([], .raised e) := by
  unfold runLoop
  rw [h]

/-- Witness for the C3 theorem at the concrete malformed line. -/
theorem c3_raised_error_witness :
    processLine [] badHexLine = .error .valueError ∧
    runLoop [] [badHexLine, klmLine] = ([], .raised .valueError) :=
  ⟨rfl, c3_raised_error_stops_loop [] badHexLine [klmLine] .valueError rfl⟩

/-! ### Arithmetic bridges between the bitwise source operations and the
plain arithmetic formulations used by the spec-level definitions -/

theorem and_one_shiftLeft_ne_zero (b k : Nat) :
    (b &&& (1 <<< k) ≠ 0) ↔ b.testBit k = true := by
  have h1 : (1 : Nat) <<< k = 2 ^ k := by rw [Nat.shiftLeft_eq, one_mul]
  rw [h1]
  constructor
  · intro h
    by_contra hb
    apply h
    apply Nat.eq_of_testBit_eq
    intro i
    rw [Nat.testBit_and, Nat.zero_testBit]
    by_cases hik : k = i
    · subst hik
      simp [Bool.eq_false_iff.mpr hb]
    · simp [Nat.testBit_two_pow, hik]
  · intro h hz
    have ht : (b &&& 2 ^ k).testBit k = true := by
      simp [Nat.testBit_and, h, Nat.testBit_two_pow]
    rw [hz, Nat.zero_testBit] at ht
    cases ht

theorem shiftLeft_lor_eq_add {b n : Nat} (h : b < 2 ^ n) (a : Nat) :
    (a <<< n) ||| b = a * 2 ^ n + b := by
  rw [Nat.shiftLeft_eq, Nat.mul_comm a (2 ^ n), ← Nat.mul_add_lt_is_or h a]

theorem and_mask_eq_mod (x n : Nat) : x &&& (2 ^ n - 1) = x % 2 ^ n :=
  Nat.and_pow_two_sub_one_eq_mod x n

theorem and_three (x : Nat) : x &&& 3 = x % 4 := by
  have h := and_mask_eq_mod x 2
  norm_num at h
  exact h

theorem and_fifteen (x : Nat) : x &&& 15 = x % 16 := by
  have h := and_mask_eq_mod x 4
  norm_num at h
  exact h

theorem and_sixtythree (x : Nat) : x &&& 63 = x % 64 := by
  have h := and_mask_eq_mod x 6
  norm_num at h
  exact h

theorem and_mask24 (x : Nat) : x &&& 0xFFFFFF = x % 2 ^ 24 := by
  have h := and_mask_eq_mod x 24
  norm_num at h
  norm_num
  exact h

/-- Pointwise-equal step functions give equal folds. -/
theorem foldl_congr_mem {α β : Type} {f g : β → α → β} :
    ∀ (l : List α) (b : β), (∀ a ∈ l, ∀ x, f x a = g x a) →
      l.foldl f b = l.foldl g b := by
  intro l
  induction l with
  | nil => intro b _; rfl
  | cons a l ih =>
    intro b h
    rw [List.foldl_cons, List.foldl_cons, h a (by simp)]
    exact ih _ (fun a2 ha2 x => h a2 (by simp [ha2]) x)

/-! ### Spec-level CRC formulation (claim C6) -/

/-- Spec-side step: for each set bit at position `j` (MSB-first within the
byte stream), XOR in the table entry indexed by `j + offset`. -/
def specCrcStep (data : List Nat) (offset : Nat) (acc j : Nat) : Nat :=
  if (data.getD (j / 8) 0).testBit (7 - j % 8) then
    acc ^^^ modes_checksum_table.getD (j + offset) 0
  else acc

/-- The CRC algorithm as the spec words it: iterate bit positions
`0..bit_length`, XOR the 24-bit table entry at `j + offset` for each set
bit, with `offset = 0` when `bit_length = 112` and `56` otherwise, masking
the result to 24 bits. -/
def specCrc (data : List Nat) (bits : Nat) : Nat :=
  let offset := if bits = 112 then 0 else 56
  ((List.range bits).foldl (specCrcStep data offset) 0) % 2 ^ 24

/-- The spec reading of the embedded CRC: the last 3 bytes of the frame as
a 24-bit big-endian integer. -/
def specEmbeddedCrc (data : List Nat) : Nat :=
  data.reverse.getD 2 0 * 2 ^ 16 + data.reverse.getD 1 0 * 2 ^ 8 +
    data.reverse.getD 0 0

theorem getD_lt_256 {data : List Nat} (hw : ∀ b ∈ data, b < 256) (i : Nat) :
    data.getD i 0 < 256 := by
  by_cases h : i < data.length
  · rw [List.getD_eq_getElem?_getD, List.getElem?_eq_getElem h]
    exact hw _ (List.getElem_mem h)
  · rw [List.getD_eq_getElem?_getD, List.getElem?_eq_none (by omega)]
    norm_num

theorem reverse_getD {α : Type} (l : List α) (d : α) (i : Nat)
    (h : i < l.length) :
    l.reverse.getD i d = l.getD (l.length - 1 - i) d := by
  simp [List.getD_eq_getElem?_getD, List.getElem?_reverse h]

/-- C6: the computed CRC agrees with the spec formulation (bit iteration
with the 112/56 offset rule, masked to 24 bits), and the embedded CRC is
exactly the last 3 bytes of the frame read as a big-endian 24-bit
integer. -/
theorem c6_crc_matches_spec (data : List Nat) (bits : Nat)
    (hbits : bits = 56 ∨ bits = 112) (hlen : data.length = bits / 8)
    (hw : ∀ b ∈ data, b < 256) :
    adsb_crc data bits = specCrc data bits ∧
    adsb_msg_get_crc data bits = specEmbeddedCrc data := by
  constructor
  · have hoff : (if bits ≠ 112 then 112 - 56 else 0) =
        (if bits = 112 then 0 else 56) := by
      rcases hbits with h | h <;> subst h <;> norm_num
    have hstep : ∀ j ∈ List.range bits, ∀ acc,
        adsb_crc_step data (if bits = 112 then 0 else 56) acc j =
        specCrcStep data (if bits = 112 then 0 else 56) acc j := by
      intro j _ acc
      simp only [adsb_crc_step, specCrcStep]
      exact if_congr (and_one_shiftLeft_ne_zero _ _) rfl rfl
    simp only [adsb_crc, specCrc]
    rw [hoff, and_mask24]
    congr 1
    exact foldl_congr_mem _ _ hstep
  · have hL : 7 ≤ data.length := by
      rcases hbits with h | h <;> subst h <;> omega
    have hr2 := reverse_getD data 0 2 (by omega)
    have hr1 := reverse_getD data 0 1 (by omega)
    have hr0 := reverse_getD data 0 0 (by omega)
    have hidx3 : bits / 8 - 3 = data.length - 1 - 2 := by
      rcases hbits with h | h <;> subst h <;> omega
    have hidx2 : bits / 8 - 2 = data.length - 1 - 1 := by
      rcases hbits with h | h <;> subst h <;> omega
    have hidx1 : bits / 8 - 1 = data.length - 1 - 0 := by
      rcases hbits with h | h <;> subst h <;> omega
    have hb : data.getD (data.length - 1 - 1) 0 < 256 := getD_lt_256 hw _
    have hc : data.getD (data.length - 1 - 0) 0 < 256 := getD_lt_256 hw _
    unfold adsb_msg_get_crc specEmbeddedCrc
    rw [hr2, hr1, hr0, hidx3, hidx2, hidx1]
    rw [Nat.lor_assoc]
    rw [shiftLeft_lor_eq_add (show data.getD (data.length - 1 - 0) 0 < 2 ^ 8
      from hc) _]
    rw [shiftLeft_lor_eq_add (show data.getD (data.length - 1 - 1) 0 * 2 ^ 8 +
      data.getD (data.length - 1 - 0) 0 < 2 ^ 16 by omega) _]
    ring

/-- Witness for the C6 theorem at the concrete CRC-valid type-0 frame. -/
theorem c6_crc_matches_spec_witness :
    adsb_crc type0Msg 56 = specCrc type0Msg 56 ∧
    adsb_msg_get_crc type0Msg 56 = specEmbeddedCrc type0Msg :=
  c6_crc_matches_spec type0Msg 56 (Or.inl rfl) rfl (by decide)

theorem pyGet_eq_ok_getD {α : Type} (d : α) {l : List α} {i : Nat}
    (h : i < l.length) : pyGet l i = .ok (l.getD i d) := by
  unfold pyGet
  rw [dif_pos h, List.getD_eq_getElem?_getD, List.getElem?_eq_getElem h]
  rfl

theorem take_getD {α : Type} (l : List α) (n i : Nat) (d : α) (h : i < n) :
    (l.take n).getD i d = l.getD i d := by
  simp [List.getD_eq_getElem?_getD, List.getElem?_take_of_lt h]

/-- When every bit position stays inside the buffer and the table, the
checked CRC loop succeeds and agrees with the pure one. -/
theorem adsb_crcE_loop_ok (data : List Nat) (offset : Nat) :
    ∀ (js : List Nat) (acc : Nat),
      (∀ j ∈ js, j / 8 < data.length ∧ j + offset < 112) →
      adsb_crcE_loop data offset js acc =
        .ok (js.foldl (adsb_crc_step data offset) acc) := by
  intro js
  induction js with
  | nil => intro acc _; rfl
  | cons j rest ih =>
    intro acc hb
    obtain ⟨hj1, hj2⟩ := hb j (by simp)
    have htl : j + offset < modes_checksum_table.length := by
      have : modes_checksum_table.length = 112 := by rfl
      omega
    simp only [adsb_crcE_loop, adsb_crcE_step, List.foldl_cons, adsb_crc_step]
    rw [pyGet_eq_ok_getD 0 hj1]
    dsimp only
    by_cases hbit : data.getD (j / 8) 0 &&& 1 <<< (7 - j % 8) ≠ 0
    · rw [if_pos hbit, if_pos hbit, pyGet_eq_ok_getD 0 htl]
      dsimp only
      exact ih _ (fun x hx => hb x (by simp [hx]))
    · rw [if_neg hbit, if_neg hbit]
      dsimp only
      exact ih _ (fun x hx => hb x (by simp [hx]))

/-- C10: on a buffer of at least `bits/8` bytes with `bits` in {56, 112},
the CRC computation never goes out of range - the checked variant (which
raises on any out-of-range buffer or table index) succeeds with the same
value, the value only depends on the first `bits/8` bytes, and the result
is below 2^24. -/
theorem c10_adsb_crc_total_inbounds (data : List Nat) (bits : Nat)
    (hbits : bits = 56 ∨ bits = 112) (hlen : bits / 8 ≤ data.length) :
    adsb_crcE data bits = .ok (adsb_crc data bits) ∧
    adsb_crc data bits = adsb_crc (data.take (bits / 8)) bits ∧
    adsb_crc data bits < 2 ^ 24 := by
  have hcond : ∀ j ∈ List.range bits,
      j / 8 < data.length ∧
      j + (if bits ≠ 112 then 112 - 56 else 0) < 112 := by
    intro j hj
    rw [List.mem_range] at hj
    rcases hbits with h | h <;> subst h
    · have hoff : (if (56 : Nat) ≠ 112 then 112 - 56 else 0) = 56 := by
        norm_num
      rw [hoff]
      omega
    · have hoff : (if (112 : Nat) ≠ 112 then 112 - 56 else 0) = 0 := by
        norm_num
      rw [hoff]
      omega
  refine ⟨?_, ?_, ?_⟩
  · simp only [adsb_crcE, adsb_crc]
    rw [adsb_crcE_loop_ok data _ (List.range bits) 0 hcond]
  · simp only [adsb_crc]
    congr 1
    apply foldl_congr_mem
    intro j hj acc
    rw [List.mem_range] at hj
    have hjk : j / 8 < bits / 8 := by
      rcases hbits with h | h <;> subst h <;> omega
    simp only [adsb_crc_step]
    rw [take_getD data (bits / 8) (j / 8) 0 hjk]
  · exact Nat.lt_of_le_of_lt Nat.and_le_right (by norm_num)

/-- Witness for the C10 theorem at the concrete 14-byte scenario frame. -/
theorem c10_adsb_crc_total_witness :
    adsb_crcE klmMsg 112 = .ok (adsb_crc klmMsg 112) ∧
    adsb_crc klmMsg 112 = adsb_crc (klmMsg.take (112 / 8)) 112 ∧
    adsb_crc klmMsg 112 < 2 ^ 24 :=
  c10_adsb_crc_total_inbounds klmMsg 112 (Or.inr rfl) (by decide)

theorem adsb_len_by_type_cases (t : Nat) :
    adsb_len_by_type t = 56 ∨ adsb_len_by_type t = 112 := by
  unfold adsb_len_by_type
  split
  · right; rfl
  · left; rfl

theorem adsb_msg_get_crcE_ok {data : List Nat} {bits : Nat}
    (h3 : bits / 8 - 3 < data.length) (h2 : bits / 8 - 2 < data.length)
    (h1 : bits / 8 - 1 < data.length) :
    adsb_msg_get_crcE data bits = .ok (adsb_msg_get_crc data bits) := by
  unfold adsb_msg_get_crcE adsb_msg_get_crc
  rw [pyGet_eq_ok_getD 0 h3]
  dsimp only
  rw [pyGet_eq_ok_getD 0 h2]
  dsimp only
  rw [pyGet_eq_ok_getD 0 h1]

theorem adsb_crcE_ok {data : List Nat} {bits : Nat}
    (hbits : bits = 56 ∨ bits = 112) (hlen : bits / 8 ≤ data.length) :
    adsb_crcE data bits = .ok (adsb_crc data bits) := by
  have hcond : ∀ j ∈ List.range bits,
      j / 8 < data.length ∧
      j + (if bits ≠ 112 then 112 - 56 else 0) < 112 := by
    intro j hj
    rw [List.mem_range] at hj
    rcases hbits with h | h <;> subst h
    · have hoff : (if (56 : Nat) ≠ 112 then 112 - 56 else 0) = 56 := by
        norm_num
      rw [hoff]
      omega
    · have hoff : (if (112 : Nat) ≠ 112 then 112 - 56 else 0) = 0 := by
        norm_num
      rw [hoff]
      omega
  simp only [adsb_crcE, adsb_crc]
  rw [adsb_crcE_loop_ok data _ (List.range bits) 0 hcond]

/-- C7: for a line whose frame decodes (and is long enough for its declared
bit length), a CRC mismatch means the frame is silently dropped - the line
produces no record and no error, and the loop behaves exactly as if the
line were absent - while a CRC match hands the frame to the dispatcher.
So a frame reaches dispatch if and only if the two CRC values agree. -/
theorem c7_crc_mismatch_silently_dropped (airplanes : List (List String))
    (line : String) (rest : List String) (msg : List Nat)
    (hdec : decodeLine line = .ok msg) (hne : msg ≠ [])
    (hlen : adsb_len_by_type (adsb_msg_get_type msg) / 8 ≤ msg.length) :
    (adsb_msg_get_crc msg (adsb_len_by_type (adsb_msg_get_type msg)) ≠
        adsb_crc msg (adsb_len_by_type (adsb_msg_get_type msg)) →
      processLine airplanes line = .ok none ∧
      runLoop airplanes (line :: rest) = runLoop airplanes rest) ∧
    (adsb_msg_get_crc msg (adsb_len_by_type (adsb_msg_get_type msg)) =
        adsb_crc msg (adsb_len_by_type (adsb_msg_get_type msg)) →
      processLine airplanes line =
        dispatchMsg airplanes msg (adsb_msg_get_type msg)) := by
  have hbits := adsb_len_by_type_cases (adsb_msg_get_type msg)
  have hlt0 : 0 < msg.length := List.length_pos.mpr hne
  have hgt8 : 7 ≤ adsb_len_by_type (adsb_msg_get_type msg) / 8 := by
    rcases hbits with h | h <;> omega
  have hPL : processLine airplanes line = processMsg airplanes msg := by
    unfold processLine
    rw [hdec]
  have hMsg : processMsg airplanes msg =
      if adsb_msg_get_crc msg (adsb_len_by_type (adsb_msg_get_type msg)) ≠
          adsb_crc msg (adsb_len_by_type (adsb_msg_get_type msg)) then
        .ok none
      else dispatchMsg airplanes msg (adsb_msg_get_type msg) := by
    unfold processMsg
    rw [pyGet_eq_ok_getD 0 hlt0]
    dsimp only
    rw [show msg.getD 0 0 >>> 3 = adsb_msg_get_type msg from rfl]
    rw [adsb_msg_get_crcE_ok (by omega) (by omega) (by omega)]
    dsimp only
    rw [adsb_crcE_ok hbits hlen]
  constructor
  · intro hneq
    refine ⟨?_, ?_⟩
    · rw [hPL, hMsg, if_pos hneq]
    · simp only [runLoop]
      rw [hPL, hMsg, if_pos hneq]
  · intro heq
    rw [hPL, hMsg, if_neg (fun hx => hx heq)]

/-- The scenario frame with a corrupted last byte. -/
def badCrcMsg : List Nat :=
  [0x8D, 0x48, 0x40, 0xD6, 0x20, 0x2C, 0xC3, 0x71, 0xC3, 0x2C, 0xE0,
   0x57, 0x60, 0x99]

/-- Witness for the C7 theorem at the corrupted scenario line. -/
theorem c7_crc_mismatch_witness :
    processLine [] badCrcLine = .ok none ∧
    runLoop [] [badCrcLine] = runLoop [] [] :=
  (c7_crc_mismatch_silently_dropped [] badCrcLine [] badCrcMsg rfl
    (by decide) (by decide)).1 (by decide)

theorem neg_pi_lt_atan2 (y x : ℝ) : -Real.pi < atan2 y x :=
  Complex.neg_pi_lt_arg _

theorem atan2_le_pi (y x : ℝ) : atan2 y x ≤ Real.pi :=
  Complex.arg_le_pi _

/-- Normalizing `atan2` scaled to degrees by adding 360 when negative
always lands in `[0, 360)`. -/
theorem heading_norm_range (y x : ℝ) :
    0 ≤ (if atan2 y x * 360 / (Real.pi * 2) < 0 then
           atan2 y x * 360 / (Real.pi * 2) + 360
         else atan2 y x * 360 / (Real.pi * 2)) ∧
    (if atan2 y x * 360 / (Real.pi * 2) < 0 then
       atan2 y x * 360 / (Real.pi * 2) + 360
     else atan2 y x * 360 / (Real.pi * 2)) < 360 := by
  have h1 : -Real.pi < atan2 y x := neg_pi_lt_atan2 y x
  have h2 : atan2 y x ≤ Real.pi := atan2_le_pi y x
  have hpi : 0 < Real.pi := Real.pi_pos
  have h2p : 0 < Real.pi * 2 := by linarith
  have hub : atan2 y x * 360 / (Real.pi * 2) ≤ 180 := by
    rw [div_le_iff₀ h2p]
    nlinarith
  have hlb : -180 < atan2 y x * 360 / (Real.pi * 2) := by
    rw [lt_div_iff₀ h2p]
    nlinarith
  constructor
  · split_ifs with hneg
    · linarith
    · linarith [not_lt.mp hneg]
  · split_ifs with hneg
    · linarith
    · linarith

/-- C9: for every frame buffer, the heading extractor returns a value in
`[0, 360)`: the degree-scaled `atan2` result gets 360 added exactly when
negative, so the output is never negative and never reaches 360. -/
theorem c9_heading_in_range (data : List Nat) :
    0 ≤ adsb_msg_get_airborne_heading data ∧
    adsb_msg_get_airborne_heading data < 360 := by
  unfold adsb_msg_get_airborne_heading
  exact heading_norm_range _ _

/-! ### Spec-level callsign formulation (claim C8) -/

/-- The 48-bit big-endian integer formed by bytes 5..10, the callsign
field of an identification frame. -/
def specCallsignField (data : List Nat) : Nat :=
  data.getD 5 0 * 2 ^ 40 + data.getD 6 0 * 2 ^ 32 + data.getD 7 0 * 2 ^ 24 +
    data.getD 8 0 * 2 ^ 16 + data.getD 9 0 * 2 ^ 8 + data.getD 10 0

/-- The i-th of the eight 6-bit codes of the callsign field, MSB first. -/
def specCallsignCode (data : List Nat) (i : Nat) : Nat :=
  (specCallsignField data >>> (42 - 6 * i)) % 64

/-- The eight decoded characters of the callsign field, before any
trimming. -/
def specCallsignRaw (data : List Nat) : List Char :=
  [ais_charset.getD (specCallsignCode data 0) '?',
   ais_charset.getD (specCallsignCode data 1) '?',
   ais_charset.getD (specCallsignCode data 2) '?',
   ais_charset.getD (specCallsignCode data 3) '?',
   ais_charset.getD (specCallsignCode data 4) '?',
   ais_charset.getD (specCallsignCode data 5) '?',
   ais_charset.getD (specCallsignCode data 6) '?',
   ais_charset.getD (specCallsignCode data 7) '?']

/-- C8 counterexample: a callsign field encoding `" ABC    "` (leading
space) decodes to `"ABC"`: the leading space is NOT preserved, because the
source calls `str.strip()`, which trims both ends. -/
theorem c8_leading_space_not_preserved :
    specCallsignRaw leadingSpaceFrame = " ABC    ".toList ∧
    adsb_msg_get_flight leadingSpaceFrame = "ABC" ∧
    ("ABC" : String) ≠ " ABC" :=
  ⟨rfl, rfl, by decide⟩


/-- C8 (amended): the callsign extractor decodes exactly the eight 6-bit
codes spanning bytes 5..10 through the 64-entry table and concatenates
them in order, but then strips spaces from BOTH ends (Python
`str.strip()`), not only on the right. -/
theorem c8_flight_decodes_and_strips_both_ends (data : List Nat)
    (hw : ∀ b ∈ data, b < 256) :
    adsb_msg_get_flight data = String.mk (pyStrip (specCallsignRaw data)) := by
  have hb5 := getD_lt_256 hw 5
  have hb6 := getD_lt_256 hw 6
  have hb7 := getD_lt_256 hw 7
  have hb8 := getD_lt_256 hw 8
  have hb9 := getD_lt_256 hw 9
  have hb10 := getD_lt_256 hw 10
  have hx0 : (42 : Nat) - 6 * 0 = 42 := by norm_num
  have hx1 : (42 : Nat) - 6 * 1 = 36 := by norm_num
  have hx2 : (42 : Nat) - 6 * 2 = 30 := by norm_num
  have hx3 : (42 : Nat) - 6 * 3 = 24 := by norm_num
  have hx4 : (42 : Nat) - 6 * 4 = 18 := by norm_num
  have hx5 : (42 : Nat) - 6 * 5 = 12 := by norm_num
  have hx6 : (42 : Nat) - 6 * 6 = 6 := by norm_num
  have hx7 : (42 : Nat) - 6 * 7 = 0 := by norm_num
  have e0 : data.getD 5 0 >>> 2 = specCallsignCode data 0 := by
    simp only [specCallsignCode, specCallsignField, hx0]
    rw [Nat.shiftRight_eq_div_pow, Nat.shiftRight_eq_div_pow]
    omega
  have e1 : ((data.getD 5 0 &&& 3) <<< 4) ||| (data.getD 6 0 >>> 4) =
      specCallsignCode data 1 := by
    have hlt : data.getD 6 0 >>> 4 < 2 ^ 4 := by
      rw [Nat.shiftRight_eq_div_pow]
      omega
    rw [shiftLeft_lor_eq_add hlt, and_three, Nat.shiftRight_eq_div_pow]
    simp only [specCallsignCode, specCallsignField, hx1]
    rw [Nat.shiftRight_eq_div_pow]
    omega
  have e2 : ((data.getD 6 0 &&& 15) <<< 2) ||| (data.getD 7 0 >>> 6) =
      specCallsignCode data 2 := by
    have hlt : data.getD 7 0 >>> 6 < 2 ^ 2 := by
      rw [Nat.shiftRight_eq_div_pow]
      omega
    rw [shiftLeft_lor_eq_add hlt, and_fifteen, Nat.shiftRight_eq_div_pow]
    simp only [specCallsignCode, specCallsignField, hx2]
    rw [Nat.shiftRight_eq_div_pow]
    omega
  have e3 : data.getD 7 0 &&& 63 = specCallsignCode data 3 := by
    rw [and_sixtythree]
    simp only [specCallsignCode, specCallsignField, hx3]
    rw [Nat.shiftRight_eq_div_pow]
    omega
  have e4 : data.getD 8 0 >>> 2 = specCallsignCode data 4 := by
    simp only [specCallsignCode, specCallsignField, hx4]
    rw [Nat.shiftRight_eq_div_pow, Nat.shiftRight_eq_div_pow]
    omega
  have e5 : ((data.getD 8 0 &&& 3) <<< 4) ||| (data.getD 9 0 >>> 4) =
      specCallsignCode data 5 := by
    have hlt : data.getD 9 0 >>> 4 < 2 ^ 4 := by
      rw [Nat.shiftRight_eq_div_pow]
      omega
    rw [shiftLeft_lor_eq_add hlt, and_three, Nat.shiftRight_eq_div_pow]
    simp only [specCallsignCode, specCallsignField, hx5]
    rw [Nat.shiftRight_eq_div_pow]
    omega
  have e6 : ((data.getD 9 0 &&& 15) <<< 2) ||| (data.getD 10 0 >>> 6) =
      specCallsignCode data 6 := by
    have hlt : data.getD 10 0 >>> 6 < 2 ^ 2 := by
      rw [Nat.shiftRight_eq_div_pow]
      omega
    rw [shiftLeft_lor_eq_add hlt, and_fifteen, Nat.shiftRight_eq_div_pow]
    simp only [specCallsignCode, specCallsignField, hx6]
    rw [Nat.shiftRight_eq_div_pow]
    omega
  have e7 : data.getD 10 0 &&& 63 = specCallsignCode data 7 := by
    rw [and_sixtythree]
    simp only [specCallsignCode, specCallsignField, hx7]
    rw [Nat.shiftRight_eq_div_pow]
    omega
  simp only [adsb_msg_get_flight, specCallsignRaw, e0, e1, e2, e3, e4, e5,
    e6, e7]

/-- Witness for the C8 theorem at a frame whose callsign field encodes
`"ABC     "`: the decoded flight is the both-ends-stripped `"ABC"`. -/
theorem c8_flight_witness :
    (∀ b ∈ abcFrame, b < 256) ∧
    adsb_msg_get_flight abcFrame =
      String.mk (pyStrip (specCallsignRaw abcFrame)) ∧
    adsb_msg_get_flight abcFrame = "ABC" :=
  ⟨by decide, c8_flight_decodes_and_strips_both_ends abcFrame (by decide),
    rfl⟩
